import Mathlib

/-
Verification of the epo_processor pipeline (Qubut/IP-Claim, Go).

This file shallowly embeds the parts of the Go source that the checked
properties speak about:

  * internal/parse/parse.go  -- exchangeDocumentFromNode, processSingleXML,
    ParseAllToCSV (row synthesis, per-file all-or-nothing write);
  * the extract package (shipped inside internal/logger/logger.go) --
    extractAllZipsInDir, findAllZipFilesRecursive, extractZipToDir;
  * internal/download/download.go -- parseFileSize, getUnitMultiplier,
    the retry policy of DownloadFile, the HTTP client timeout of FetchFiles.

Pure functions become Lean functions; the IOEither pipelines become Except
values; the archive fixpoint becomes a fuel-indexed loop over an abstract
file-tree state.  Go int64 arithmetic is modelled on Int with an explicit
two-complement wrap where overflow is reachable.
-/

namespace EpoProc

/-! ## Small utilities shared by the embeddings -/

/-- Two-complement wrap of an Int into the int64 range, modelling Go int64
overflow.  Values already in the range are fixed points. -/
def wrap64 (x : Int) : Int := (x + 2 ^ 63) % 2 ^ 64 - 2 ^ 63

/-- Whitespace as recognised by Go unicode.IsSpace on the ASCII range
(space, tab, newline, vertical tab, form feed, carriage return); used by
strings.TrimSpace. -/
def isGoSpace (c : Char) : Bool :=
  c = ' ' || c = '\t' || c = '\n' || c = '\x0b' || c = '\x0c' || c = '\r'

/-- strings.TrimSpace (ASCII fragment): drop leading and trailing
whitespace. -/
def trimSpace (s : String) : String :=
  ⟨((s.data.dropWhile isGoSpace).reverse.dropWhile isGoSpace).reverse⟩

/-- ASCII uppercase of one character, as strings.ToUpper acts on ASCII. -/
def asciiUpperChar (c : Char) : Char :=
  if 'a' ≤ c ∧ c ≤ 'z' then Char.ofNat (c.toNat - 32) else c

/-- strings.ToUpper restricted to ASCII input. -/
def asciiUpper (s : String) : String := ⟨s.data.map asciiUpperChar⟩

/-- The sorted duplicate-free listing of the elements of a list.  This models
the Go idiom used in exchangeDocumentFromNode: insert the strings into a
map used as a set, collect the keys, then sort.Strings the result -- the
output is exactly the sorted enumeration of the distinct elements, whatever
the map iteration order was. -/
def sortDedup (l : List String) : List String :=
  List.insertionSort (fun a b => a ≤ b) l.dedup

/-- Effectful traversal of a list with a fallible step; mirrors
IOE.TraverseArray / ET.TraverseArray from fp-go: the first Left aborts the
whole traversal. -/
def traverseExcept (f : α → Except ε β) : List α → Except ε (List β)
  | [] => .ok []
  | a :: as =>
    match f a with
    | .error e => .error e
    | .ok b =>
      match traverseExcept f as with
      | .error e => .error e
      | .ok bs => .ok (b :: bs)

/-- IOE.GetOrElse with an empty-list default, as used around the
classification and family extraction pipelines in parse.go: any error is
swallowed and replaced by the empty list. -/
def orElseEmpty (r : Except String (List α)) : List α :=
  match r with
  | .ok l => l
  | .error _ => []

/-! ## XML document model (antchfx/xmlquery fragment)

An element node carries its local name, its attributes, its directly
contained text (InnerText of a leaf element is modelled as this field) and
its child elements.  The XPath queries the source issues are embedded as
list operations in document order. -/

structure XmlAttr where
  name : String
  value : String
deriving DecidableEq, Repr

inductive XmlNode where
  | elem (name : String) (attrs : List XmlAttr) (text : String)
      (children : List XmlNode)

def XmlNode.name : XmlNode → String
  | .elem n _ _ _ => n

def XmlNode.attrs : XmlNode → List XmlAttr
  | .elem _ a _ _ => a

def XmlNode.text : XmlNode → String
  | .elem _ _ t _ => t

def XmlNode.children : XmlNode → List XmlNode
  | .elem _ _ _ c => c

/-- Node.SelectAttr: the value of the named attribute, or the empty string
when absent. -/
def XmlNode.selectAttr (n : XmlNode) (key : String) : String :=
  match n.attrs.find? (fun a => a.name == key) with
  | some a => a.value
  | none => ""

/-- All strict descendants of the nodes of a list, in document (pre-) order;
the carrier of the descendant axis used by the .//* queries. -/
def descendantsList : List XmlNode → List XmlNode
  | [] => []
  | .elem nm at_ tx ch :: cs =>
    .elem nm at_ tx ch :: (descendantsList ch ++ descendantsList cs)

/-- All strict descendants of a node, document order. -/
def XmlNode.descendants (n : XmlNode) : List XmlNode := descendantsList n.children

/-- The child elements with a given local name, in document order; the child
axis step of the embedded XPath queries. -/
def childrenNamed (n : XmlNode) (nm : String) : List XmlNode :=
  n.children.filter (fun c => c.name == nm)

/-- FindOne on a single child-axis step: the first child with the given
local name. -/
def findChild (n : XmlNode) (nm : String) : Option XmlNode :=
  (childrenNamed n nm).head?

/-- getText from parse.go: the trimmed text of the first matching child, or
the empty string when there is none. -/
def getText (parent : XmlNode) (nm : String) : String :=
  match findChild parent nm with
  | none => ""
  | some n => trimSpace n.text

/-! ## Record model (internal/parse/epo-models.go) -/

structure PatentClassification where
  scheme : String
  classificationSymbol : String
deriving DecidableEq, Repr

structure Citation where
  citedID : String
  categories : List String
deriving DecidableEq, Repr

structure DocumentID where
  country : String
  docNumber : String
  kind : String
deriving DecidableEq, Repr

structure PublicationReference where
  dataFormat : String
  documentID : DocumentID
deriving DecidableEq, Repr

structure FamilyMember where
  publicationReferences : List PublicationReference
deriving DecidableEq, Repr

structure ExchangeDocument where
  country : String
  docNumber : String
  kind : String
  status : String
  patentClassifications : List PatentClassification
  citations : List Citation
  familyMembers : List FamilyMember
deriving DecidableEq, Repr

/-- The five CSV columns of one output row, in file order: patent_id,
status, cpc_list, citations, family_patents. -/
structure CsvRow where
  patentId : String
  status : String
  cpcList : String
  citations : String
  familyPatents : String
deriving DecidableEq, Repr

/-! ## exchangeDocumentFromNode (parse.go lines 422-601) -/

/-- The patent-classification descendants queried by
.//*[local-name()=patent-classification]. -/
def classificationNodes (n : XmlNode) : List XmlNode :=
  n.descendants.filter (fun d => d.name == "patent-classification")

/-- One classification node: requires a classification-scheme child with a
non-empty scheme attribute and a classification-symbol child, exactly in the
order the source checks them. -/
def classificationFromNode (n : XmlNode) : Except String PatentClassification :=
  match findChild n "classification-scheme" with
  | none => .error "missing classification-scheme"
  | some schemeNode =>
    let scheme := schemeNode.selectAttr "scheme"
    if scheme = "" then .error "missing scheme attribute"
    else
      match findChild n "classification-symbol" with
      | none => .error "missing classification-symbol"
      | some symbolNode =>
        .ok { scheme := scheme,
              classificationSymbol := trimSpace symbolNode.text }

/-- The classifications pipeline before its GetOrElse: traverse all
patent-classification descendants, first failure aborts. -/
def extractClassifications (n : XmlNode) : Except String (List PatentClassification) :=
  traverseExcept classificationFromNode (classificationNodes n)

/-- The citation nodes: .//references-cited/citation. -/
def citationNodes (n : XmlNode) : List XmlNode :=
  (n.descendants.filter (fun d => d.name == "references-cited")).flatMap
    (fun rc => childrenNamed rc "citation")

/-- Category strings of one citation: direct category children united with
rel-passage/category grandchildren (the two alternatives of the source
query; a citation uses one of the two shapes, so listing the direct
children first preserves document order), trimmed, empties dropped. -/
def categoriesOfCitation (n : XmlNode) : List String :=
  ((childrenNamed n "category" ++
      (childrenNamed n "rel-passage").flatMap (fun rp => childrenNamed rp "category")).map
    (fun c => trimSpace c.text)).filter (fun s => s != "")

/-- The cited document id: from the first patcit/document-id, the
concatenation of country, doc-number and kind texts; empty when all three
are empty or when there is no such node. -/
def citedIDOfCitation (n : XmlNode) : String :=
  match ((childrenNamed n "patcit").flatMap
      (fun p => childrenNamed p "document-id")).head? with
  | none => ""
  | some docIDNode =>
    let c := getText docIDNode "country"
    let d := getText docIDNode "doc-number"
    let k := getText docIDNode "kind"
    if c = "" ∧ d = "" ∧ k = "" then "" else c ++ d ++ k

/-- One citation record; the per-citation step of the source never fails. -/
def citationFromNode (n : XmlNode) : Citation :=
  { citedID := citedIDOfCitation n, categories := categoriesOfCitation n }

/-- All citations of an exchange document. -/
def citationsOf (n : XmlNode) : List Citation :=
  (citationNodes n).map citationFromNode

/-- The family-member nodes: .//patent-family/family-member. -/
def familyMemberNodes (n : XmlNode) : List XmlNode :=
  (n.descendants.filter (fun d => d.name == "patent-family")).flatMap
    (fun pf => childrenNamed pf "family-member")

/-- One publication-reference: requires a data-format attribute and a
document-id child. -/
def publicationReferenceFromNode (pr : XmlNode) : Except String PublicationReference :=
  let dataFormat := pr.selectAttr "data-format"
  if dataFormat = "" then .error "missing data-format attribute"
  else
    match findChild pr "document-id" with
    | none => .error "no document-id found"
    | some docIDNode =>
      .ok { dataFormat := dataFormat,
            documentID :=
              { country := getText docIDNode "country",
                docNumber := getText docIDNode "doc-number",
                kind := getText docIDNode "kind" } }

/-- One family member: traverse its publication-reference children. -/
def familyMemberFromNode (fm : XmlNode) : Except String FamilyMember :=
  match traverseExcept publicationReferenceFromNode
      (childrenNamed fm "publication-reference") with
  | .error e => .error e
  | .ok refs => .ok { publicationReferences := refs }

/-- The family pipeline before its GetOrElse. -/
def extractFamilyMembers (n : XmlNode) : Except String (List FamilyMember) :=
  traverseExcept familyMemberFromNode (familyMemberNodes n)

/-- The ExchangeDocument value assembled by exchangeDocumentFromNode.  Note
the GetOrElse wrappers: an extraction error inside classifications or
family members is replaced by the empty list, not propagated. -/
def docOfNode (n : XmlNode) : ExchangeDocument :=
  { country := n.selectAttr "country",
    docNumber := n.selectAttr "doc-number",
    kind := n.selectAttr "kind",
    status := n.selectAttr "status",
    patentClassifications := orElseEmpty (extractClassifications n),
    citations := citationsOf n,
    familyMembers := orElseEmpty (extractFamilyMembers n) }

/-- patentID := country + docNumber + kind. -/
def patentIDOf (doc : ExchangeDocument) : String :=
  doc.country ++ doc.docNumber ++ doc.kind

/-- The cpc list: symbols of the classifications whose scheme is exactly
CPCI, as a set, sorted (cpcSet / sort.Strings of the source). -/
def cpcListOf (doc : ExchangeDocument) : List String :=
  sortDedup ((doc.patentClassifications.filter
      (fun pc => pc.scheme == "CPCI")).map
    (fun pc => pc.classificationSymbol))

/-- fmt.Sprintf of one citation: citedID, space, categories joined by a
comma inside parentheses. -/
def fmtCitation (c : Citation) : String :=
  c.citedID ++ " (" ++ String.intercalate "," c.categories ++ ")"

/-- The citations column: array.Chain dropping citations with an empty
citedID, then strings.Join with a semicolon. -/
def citationsStrOf (doc : ExchangeDocument) : String :=
  String.intercalate ";"
    (doc.citations.flatMap
      (fun c => if c.citedID ≠ "" then [fmtCitation c] else []))

/-- The composed family ids with dataFormat docdb that differ from the
documents own patentID (the familySet loop of the source, before
collection and sorting). -/
def familyIDsOf (doc : ExchangeDocument) : List String :=
  (doc.familyMembers.flatMap (fun fm => fm.publicationReferences)).filterMap
    (fun pr =>
      if pr.dataFormat == "docdb" then
        let fid := pr.documentID.country ++ pr.documentID.docNumber ++ pr.documentID.kind
        if fid ≠ patentIDOf doc then some fid else none
      else none)

/-- The family list: familySet collected and sorted. -/
def familyListOf (doc : ExchangeDocument) : List String :=
  sortDedup (familyIDsOf doc)

/-- The row synthesis of exchangeDocumentFromNode (parse.go lines 554-600). -/
def rowOfDoc (doc : ExchangeDocument) : CsvRow :=
  { patentId := patentIDOf doc,
    status := doc.status,
    cpcList := String.intercalate ";" (cpcListOf doc),
    citations := citationsStrOf doc,
    familyPatents := String.intercalate ";" (familyListOf doc) }

/-- exchangeDocumentFromNode: reject only when one of the four required
attributes is empty; otherwise produce the synthesized row. -/
def exchangeDocumentFromNode (node : XmlNode) : Except String CsvRow :=
  if node.selectAttr "country" = "" ∨ node.selectAttr "doc-number" = "" ∨
      node.selectAttr "kind" = "" ∨ node.selectAttr "status" = "" then
    .error "missing required attributes"
  else .ok (rowOfDoc (docOfNode node))

/-! ## processSingleXML and the per-file write (parse.go lines 127-420) -/

/-- processSingleXML restricted to its record computation: traverse the
exchange-document nodes of one file; the first rejection fails the whole
file and no rows are returned. -/
def processSingleXML (nodes : List XmlNode) : Except String (List CsvRow) :=
  traverseExcept exchangeDocumentFromNode nodes

/-- The per-file stage of ParseAllToCSV acting on the CSV row state: when
processSingleXML fails nothing is written; when it succeeds every row is
appended (the ET.TraverseArray over safeWrite). -/
def appendRowsOfFile (csv : List CsvRow) (nodes : List XmlNode) : List CsvRow :=
  match processSingleXML nodes with
  | .error _ => csv
  | .ok rows => csv ++ rows

/-! ## Archive unpacker: the recursive fixpoint (logger.go lines 396-479)

The directory tree below destDir is abstracted to the multiset of regular
files it contains; a file is either a zip archive carrying the (recursively
structured) files it would extract to, or a plain file.  One iteration of
the extractAllZipsInDir loop walks the tree (findAllZipFilesRecursive),
extracts every found archive in place -- its contents join the tree -- and
removes the archive exactly when DeleteAfter is set. -/

inductive FsItem where
  | plain : FsItem
  | zip : List FsItem → FsItem

/-- Does the file end in .zip, i.e. is it an archive the walk reports. -/
def isZipFile : FsItem → Bool
  | .zip _ => true
  | .plain => false

/-- The files a zip archive extracts to. -/
def zipContents : FsItem → List FsItem
  | .zip l => l
  | .plain => []

/-- findAllZipFilesRecursive: the zip files anywhere under the directory. -/
def findAllZipFilesRecursive (s : List FsItem) : List FsItem :=
  s.filter isZipFile

/-- One pass of the extractAllZipsInDir for-loop over the zip list the walk
returned: every found archive is extracted into its parent directory (its
contents join the state) and is deleted only when deleteAfter is true. -/
def stepExtract (deleteAfter : Bool) (s : List FsItem) : List FsItem :=
  (if deleteAfter then s.filter (fun i => !(isZipFile i)) else s) ++
    (findAllZipFilesRecursive s).flatMap zipContents

/-- extractAllZipsInDir: repeat walk-and-extract until the walk returns no
zip files.  The Go loop has no fuel; the fuel argument makes the embedding
total, with none meaning that the loop is still running after that many
iterations. -/
def extractAllZipsInDir (deleteAfter : Bool) : Nat → List FsItem → Option (List FsItem)
  | 0, _ => none
  | Nat.succ fuel, s =>
    if (findAllZipFilesRecursive s).isEmpty then some s
    else extractAllZipsInDir deleteAfter fuel (stepExtract deleteAfter s)

/-- Total number of files in a state, archives counted with their nested
contents; the termination measure of the deleting fixpoint. -/
def listWeight : List FsItem → Nat
  | [] => 0
  | .plain :: xs => 1 + listWeight xs
  | .zip l :: xs => (1 + listWeight l) + listWeight xs

/-! ## Archive unpacker: extraction of one archive (logger.go lines 481-549) -/

/-- A lexical path, relative to the download directory, as its list of
segments. -/
abbrev GoPath := List String

/-- One step of filepath.Clean over a reversed accumulator: drop empty and
dot segments, let a dot-dot pop the previous segment when there is one (and
keep it when the path begins with dot-dots, as Clean does on relative
paths). -/
def cleanPush (acc : List String) (seg : String) : List String :=
  if seg = "" ∨ seg = "." then acc
  else if seg = ".." then
    match acc with
    | [] => [".."]
    | a :: rest => if a = ".." then ".." :: a :: rest else rest
  else seg :: acc

/-- filepath.Clean on a relative path, segment level. -/
def cleanSegs (p : GoPath) : GoPath := (p.foldl cleanPush []).reverse

/-- filepath.Join of a directory and an entry name: concatenate, then
Clean. -/
def joinPath (dir : GoPath) (name : GoPath) : GoPath := cleanSegs (dir ++ name)

/-- filepath.Dir of a cleaned path: everything but the last segment. -/
def dirOfPath (p : GoPath) : GoPath := p.dropLast

/-- Does the first path lead into (is it a segment-prefix of) the second;
the containment check a defensive extractor would make against destDir. -/
def leadsInto : GoPath → GoPath → Bool
  | [], _ => true
  | _ :: _, [] => false
  | a :: as, b :: bs => a == b && leadsInto as bs

/-- The filesystem writes extractZipToDir performs. -/
inductive FsAction where
  | mkdirAll (path : GoPath)
  | writeFile (path : GoPath)
deriving DecidableEq, Repr

/-- One entry of an open archive: its name (a relative path) and whether it
is a directory entry. -/
structure ZipEntry where
  name : GoPath
  isDir : Bool
deriving DecidableEq, Repr

/-- extractZipToDir: for every entry the destination is
filepath.Join(destDir, entry name); a directory entry becomes MkdirAll, a
file entry becomes MkdirAll of its parent followed by the byte copy.  The
source applies no check whatsoever to the joined path. -/
def extractZipToDir (destDir : GoPath) (entries : List ZipEntry) : Except String (List FsAction) :=
  .ok (entries.flatMap (fun f =>
    let destPath := joinPath destDir f.name
    if f.isDir then [FsAction.mkdirAll destPath]
    else [FsAction.mkdirAll (dirOfPath destPath), FsAction.writeFile destPath]))

/-! ## Downloader: retry policy and client timeout (download.go) -/

/-- The error channel of the per-file download. -/
inductive DownloadErr where
  | cancelled
  | badStatus (code : Nat)
  | ioFailure (msg : String)
deriving DecidableEq, Repr

/-- retry.LimitRetries: allow a retry (with no delay of its own) while the
iteration number is below the limit. -/
def limitRetries (n : Nat) (iter : Nat) : Option Nat :=
  if iter < n then some 0 else none

/-- retry.ExponentialBackoff (delay in milliseconds): base times two to the
iteration number, never refusing. -/
def exponentialBackoffMs (base : Nat) (iter : Nat) : Option Nat :=
  some (base * 2 ^ iter)

/-- retry.Monoid.Concat: both policies must allow the retry; the delay is
the larger of the two. -/
def concatPolicy (p q : Nat → Option Nat) (iter : Nat) : Option Nat :=
  match p iter, q iter with
  | some a, some b => some (max a b)
  | _, _ => none

/-- The policy DownloadFile builds: LimitRetries(maxRetries) combined with
ExponentialBackoff(5 ms).  Note the source takes Cfg.Server.MaxRetries as
is; the bound of ten lives in the config validation (max=10). -/
def downloadRetryPolicy (maxRetries : Nat) : Nat → Option Nat :=
  concatPolicy (limitRetries maxRetries) (exponentialBackoffMs 5)

/-- The retry-eligibility check passed to IOE.Retrying: ET.Fold of
constantly true on errors and constantly false on successes -- every error,
the cancellation error included, asks for a retry. -/
def retryEligible (r : Except DownloadErr Int) : Bool :=
  match r with
  | .error _ => true
  | .ok _ => false

/-- IOE.Retrying: run the action; while the check asks for a retry and the
policy still allows one, sleep and run it again; the iteration counter
starts at zero.  The result is paired with the number of attempts
performed.  The fuel bounds the recursion; it is never exhausted when it
exceeds the remaining retry budget of the limit policy. -/
def retrying (policy : Nat → Option Nat) (action : Nat → Except DownloadErr Int)
    (check : Except DownloadErr Int → Bool) : Nat → Nat → Except DownloadErr Int × Nat
  | 0, iter => (action iter, 1)
  | Nat.succ fuel, iter =>
    let r := action iter
    if check r then
      match policy iter with
      | some _ =>
        let next := retrying policy action check fuel (iter + 1)
        (next.1, next.2 + 1)
      | none => (r, 1)
    else (r, 1)

/-- The retry loop of DownloadFile over the per-attempt action (the HTTP
GET, status check and body copy), with attempt counting. -/
def DownloadFileRetry (maxRetries : Nat) (action : Nat → Except DownloadErr Int) :
    Except DownloadErr Int × Nat :=
  retrying (downloadRetryPolicy maxRetries) action retryEligible (maxRetries + 1) 0

/-- DownloadFile around its retry loop: a context already cancelled at
entry returns the cancellation error before any attempt; otherwise the
action is run under the retry policy.  (The skip-if-exists path is not
modelled; the claim under study is about the retry behaviour.) -/
def DownloadFile (ctxCancelledAtEntry : Bool) (maxRetries : Nat)
    (action : Nat → Except DownloadErr Int) : Except DownloadErr Int × Nat :=
  if ctxCancelledAtEntry then (.error .cancelled, 0)
  else DownloadFileRetry maxRetries action

/-- Nanoseconds in one second: the value of time.Second. -/
def secondNs : Int := 1000000000

/-- The HTTP client timeout FetchFiles computes (download.go lines
169-179): when the configured Server.Timeout value is positive it is
multiplied by time.Second (Go int64 arithmetic), otherwise the default of
thirty seconds is used. -/
def clientTimeout (timeout : Int) : Int :=
  if 0 < timeout then wrap64 (timeout * secondNs) else 30 * secondNs

/-! ## Catalog client: parseFileSize (download.go lines 299-351) -/

/-- Whitespace of the regexp class backslash-s: tab, newline, form feed,
carriage return, space. -/
def isReSpace (c : Char) : Bool :=
  c = '\t' || c = '\n' || c = '\x0c' || c = '\r' || c = ' '

/-- An ASCII letter, the unit class of the size regular expression. -/
def isAsciiAlpha (c : Char) : Bool :=
  ('A' ≤ c && c ≤ 'Z') || ('a' ≤ c && c ≤ 'z')

/-- The three captured groups of a successful match of the size pattern:
the integer digits, the optional fraction digits, the unit letters. -/
structure SizeMatch where
  intPart : List Char
  fracPart : Option (List Char)
  unitPart : List Char
deriving DecidableEq, Repr

/-- Matching of the anchored pattern digits, an optional dot-or-comma
fraction, optional spaces, optional letters.  Each starred or plus piece is
forced to its maximal munch: no shorter choice can lead to a match, because
the classes digit, space and letter are pairwise disjoint and the
separator is in none of them, so greedy matching is complete here. -/
def matchSizeRe (cs : List Char) : Option SizeMatch :=
  let d1 := cs.takeWhile Char.isDigit
  let r1 := cs.dropWhile Char.isDigit
  if d1.isEmpty then none
  else
    let fr : Option (List Char) × List Char :=
      match r1 with
      | c :: t =>
        if (c = '.' ∨ c = ',') ∧ ¬(t.takeWhile Char.isDigit).isEmpty then
          (some (t.takeWhile Char.isDigit), t.dropWhile Char.isDigit)
        else (none, r1)
      | [] => (none, [])
    let r2 := fr.2.dropWhile isReSpace
    if r2.all isAsciiAlpha then some ⟨d1, fr.1, r2⟩ else none

/-- The numeric value of a run of decimal digits. -/
def digitsToNat (ds : List Char) : Nat :=
  ds.foldl (fun acc c => 10 * acc + (c.toNat - 48)) 0

/-- strconv.ParseInt on a digit run in base ten with bit size 64, under
option.TryCatch: none for the empty string or a value beyond the int64
maximum. -/
def goParseInt (ds : List Char) : Option Int :=
  if ds.isEmpty then none
  else if digitsToNat ds ≤ 2 ^ 63 - 1 then some (digitsToNat ds) else none

/-- int64(math.Pow10 n): exact for n up to 18; for larger n the float
exceeds the int64 range and the conversion yields the minimal int64 (the
amd64 behaviour). -/
def pow10int64 (n : Nat) : Int :=
  if n ≤ 18 then 10 ^ n else -(2 ^ 63)

/-- getUnitMultiplier: the recognized unit table; anything else gives
zero. -/
def getUnitMultiplier (unit : String) : Int :=
  let u := asciiUpper (trimSpace unit)
  if u = "TB" ∨ u = "TIB" ∨ u = "T" then 2 ^ 40
  else if u = "GB" ∨ u = "GIB" ∨ u = "G" then 2 ^ 30
  else if u = "MB" ∨ u = "MIB" ∨ u = "M" then 2 ^ 20
  else if u = "KB" ∨ u = "KIB" ∨ u = "K" then 2 ^ 10
  else if u = "B" ∨ u = "BYTES" ∨ u = "BYTE" ∨ u = "" then 1
  else 0

/-- parseFileSize: trim, match the size pattern, look the unit up, scale
the integer part by the multiplier, scale the fraction digits by the
multiplier over ten to the number of digits (Go integer division), and
combine the two parts with option.Sequence2 -- which is none unless BOTH
parts parsed -- falling back to zero.  Products and the final sum wrap as
Go int64. -/
def parseFileSize (s : String) : Int :=
  let t := trimSpace s
  if t = "" then 0
  else
    match matchSizeRe t.data with
    | none => 0
    | some m =>
      let multiplier := getUnitMultiplier ⟨m.unitPart⟩
      let whole := (goParseInt m.intPart).map (fun w => wrap64 (w * multiplier))
      let decimal :=
        match m.fracPart with
        | none => none
        | some ds =>
          (goParseInt ds).map
            (fun d => Int.tdiv (wrap64 (d * multiplier)) (pow10int64 ds.length))
      match whole, decimal with
      | some a, some b => wrap64 (a + b)
      | _, _ => 0

/-! ## Concrete fixtures used by witnesses and counterexamples -/

/-- An exchange-document with all four required attributes whose first
patent-classification descendant has no children at all (so no
classification-scheme child), next to a well-formed CPCI classification. -/
def badClsNode : XmlNode :=
  .elem "exchange-document"
    [⟨"country", "US"⟩, ⟨"doc-number", "1"⟩, ⟨"kind", "A"⟩, ⟨"status", "active"⟩] ""
    [.elem "patent-classification" [] "" [],
     .elem "patent-classification" [] ""
       [.elem "classification-scheme" [⟨"scheme", "CPCI"⟩] "" [],
        .elem "classification-symbol" [] "H04L 9/00" []]]

/-- The citation scenario of the spec: one citation whose document id has
all of country, doc-number and kind empty, and one citation of US1234A1
with categories X and Y.  The nodes are named individually so that the
evaluation lemmas can list them. -/
def scnDocId1 : XmlNode := .elem "document-id" [] "" []

def scnPatcit1 : XmlNode := .elem "patcit" [] "" [scnDocId1]

def scnCit1 : XmlNode := .elem "citation" [] "" [scnPatcit1]

def scnCountry : XmlNode := .elem "country" [] "US" []

def scnDocNum : XmlNode := .elem "doc-number" [] "1234" []

def scnKind : XmlNode := .elem "kind" [] "A1" []

def scnDocId2 : XmlNode := .elem "document-id" [] "" [scnCountry, scnDocNum, scnKind]

def scnPatcit2 : XmlNode := .elem "patcit" [] "" [scnDocId2]

def scnCatX : XmlNode := .elem "category" [] "X" []

def scnCatY : XmlNode := .elem "category" [] "Y" []

def scnCit2 : XmlNode := .elem "citation" [] "" [scnCatX, scnCatY, scnPatcit2]

def scnRefs : XmlNode := .elem "references-cited" [] "" [scnCit1, scnCit2]

def scnNode : XmlNode :=
  .elem "exchange-document"
    [⟨"country", "EP"⟩, ⟨"doc-number", "9"⟩, ⟨"kind", "B1"⟩, ⟨"status", "active"⟩] ""
    [scnRefs]

/-- A document carrying the same citation twice; the citations column keeps
both occurrences. -/
def dupCitationDoc : ExchangeDocument :=
  { country := "US", docNumber := "1", kind := "A", status := "ok",
    patentClassifications := [],
    citations := [⟨"US77B", ["X"]⟩, ⟨"US77B", ["X"]⟩],
    familyMembers := [] }

/-- A well-formed exchange-document node. -/
def goodNode : XmlNode :=
  .elem "exchange-document"
    [⟨"country", "US"⟩, ⟨"doc-number", "1"⟩, ⟨"kind", "A"⟩, ⟨"status", "ok"⟩] "" []

/-- An exchange-document node with no country attribute: the one rejection
exchangeDocumentFromNode actually performs. -/
def noCountryNode : XmlNode :=
  .elem "exchange-document"
    [⟨"doc-number", "1"⟩, ⟨"kind", "A"⟩, ⟨"status", "ok"⟩] "" []

/-! ## Helper lemmas -/

theorem sortDedup_sorted (l : List String) : List.Pairwise (· < ·) (sortDedup l) := by
  have hs : List.Sorted (· ≤ ·) (sortDedup l) := List.sorted_insertionSort _ _
  have hn : (sortDedup l).Nodup :=
    ((List.perm_insertionSort _ _).nodup_iff).mpr (List.nodup_dedup l)
  exact hs.lt_of_le hn

theorem sortDedup_nodup (l : List String) : (sortDedup l).Nodup :=
  ((List.perm_insertionSort _ _).nodup_iff).mpr (List.nodup_dedup l)

theorem mem_sortDedup {l : List String} {x : String} : x ∈ sortDedup l ↔ x ∈ l := by
  unfold sortDedup
  rw [List.mem_insertionSort, List.mem_dedup]

theorem traverseExcept_error_of_mem {α ε β : Type} {f : α → Except ε β} {l : List α}
    {a : α} (ha : a ∈ l) {e : ε} (hf : f a = .error e) :
    ∃ e2, traverseExcept f l = .error e2 := by
  induction l with
  | nil => cases ha
  | cons b bs ih =>
    rcases List.mem_cons.mp ha with rfl | hmem
    · exact ⟨e, by simp [traverseExcept, hf]⟩
    · unfold traverseExcept
      cases hfb : f b with
      | error e2 => exact ⟨e2, rfl⟩
      | ok v =>
        obtain ⟨e2, h2⟩ := ih hmem
        rw [h2]
        exact ⟨e2, rfl⟩

theorem flatMap_citation_format (cs : List Citation) :
    (cs.flatMap (fun c => if c.citedID ≠ "" then [fmtCitation c] else [])) =
      (cs.filter (fun c => c.citedID != "")).map fmtCitation := by
  induction cs with
  | nil => rfl
  | cons c cs ih =>
    simp only [ne_eq, ite_not] at ih
    by_cases h : c.citedID = "" <;>
      simp [List.flatMap_cons, List.filter_cons, h, ih]

theorem mem_familyIDsOf {doc : ExchangeDocument} {s : String} :
    s ∈ familyIDsOf doc ↔
      ((∃ fm ∈ doc.familyMembers, ∃ pr ∈ fm.publicationReferences,
          pr.dataFormat = "docdb" ∧
          pr.documentID.country ++ pr.documentID.docNumber ++ pr.documentID.kind = s) ∧
        s ≠ patentIDOf doc) := by
  unfold familyIDsOf
  rw [List.mem_filterMap]
  constructor
  · rintro ⟨pr, hpr, hsome⟩
    rw [List.mem_flatMap] at hpr
    obtain ⟨fm, hfm, hprfm⟩ := hpr
    by_cases hdf : pr.dataFormat = "docdb"
    · by_cases hne :
        pr.documentID.country ++ pr.documentID.docNumber ++ pr.documentID.kind ≠ patentIDOf doc
      · simp only [hdf, beq_self_eq_true, if_true] at hsome
        rw [if_pos hne] at hsome
        obtain rfl := Option.some.inj hsome
        exact ⟨⟨fm, hfm, pr, hprfm, hdf, rfl⟩, hne⟩
      · simp [hdf, hne] at hsome
    · simp [hdf] at hsome
  · rintro ⟨⟨fm, hfm, pr, hprfm, hdf, rfl⟩, hne⟩
    refine ⟨pr, List.mem_flatMap.mpr ⟨fm, hfm, hprfm⟩, ?_⟩
    simp [hdf, hne]

theorem listWeight_append (a b : List FsItem) :
    listWeight (a ++ b) = listWeight a + listWeight b := by
  induction a with
  | nil => simp [listWeight]
  | cons x xs ih => cases x <;> simp [listWeight, ih] <;> omega

theorem weight_filter_partition (s : List FsItem) :
    listWeight (s.filter (fun i => !(isZipFile i))) + listWeight (s.filter isZipFile) =
      listWeight s := by
  induction s with
  | nil => simp [listWeight]
  | cons x xs ih =>
    cases x <;>
      simp [List.filter_cons, isZipFile, listWeight] at ih ⊢ <;> omega

theorem weight_flatMap_zips (s : List FsItem) :
    listWeight ((s.filter isZipFile).flatMap zipContents) + (s.filter isZipFile).length =
      listWeight (s.filter isZipFile) := by
  induction s with
  | nil => simp [listWeight]
  | cons x xs ih =>
    cases x <;>
      simp [List.filter_cons, isZipFile, zipContents, List.flatMap_cons, listWeight,
        listWeight_append] at ih ⊢ <;> omega

/-- One deleting pass trades every zip found by the walk for its contents:
the weight drops by exactly the number of zips extracted. -/
theorem stepExtract_true_weight (s : List FsItem) :
    listWeight (stepExtract true s) + (findAllZipFilesRecursive s).length = listWeight s := by
  have h1 := weight_filter_partition s
  have h2 := weight_flatMap_zips s
  simp only [stepExtract, findAllZipFilesRecursive, if_true, listWeight_append]
  omega

theorem extractAllZips_terminates_of_fuel :
    ∀ fuel s, listWeight s < fuel → ∃ r, extractAllZipsInDir true fuel s = some r := by
  intro fuel
  induction fuel with
  | zero => intro s h; omega
  | succ n ih =>
    intro s h
    by_cases hz : (findAllZipFilesRecursive s).isEmpty
    · exact ⟨s, by simp [extractAllZipsInDir, hz]⟩
    · have hlen : 0 < (findAllZipFilesRecursive s).length := by
        cases hfz : findAllZipFilesRecursive s with
        | nil => rw [hfz] at hz; simp at hz
        | cons a t => simp
      have hw := stepExtract_true_weight s
      obtain ⟨r, hr⟩ := ih (stepExtract true s) (by omega)
      exact ⟨r, by simp [extractAllZipsInDir, hz, hr]⟩

/-- Under the retry policy of DownloadFile, an action failing with the
cancellation error on every attempt is retried until the limit policy
refuses: from iteration iter with fuel covering the remaining budget, all
fuel attempts are performed and the cancellation error is returned. -/
theorem retrying_cancelled_count (m : Nat) :
    ∀ fuel iter, 0 < fuel → iter + fuel = m + 1 →
      retrying (downloadRetryPolicy m) (fun _ => Except.error DownloadErr.cancelled)
        retryEligible fuel iter = (Except.error DownloadErr.cancelled, fuel) := by
  intro fuel
  induction fuel with
  | zero => intro iter h0 _; omega
  | succ k ih =>
    intro iter _ hsum
    simp only [retrying]
    by_cases hlt : iter < m
    · have hk : 0 < k := by omega
      have hrec := ih (iter + 1) hk (by omega)
      simp only [downloadRetryPolicy] at hrec
      simp [retryEligible, downloadRetryPolicy, concatPolicy, limitRetries,
        exponentialBackoffMs, hlt, hrec]
    · have hk : k = 0 := by omega
      simp [retryEligible, downloadRetryPolicy, concatPolicy, limitRetries,
        exponentialBackoffMs, hlt, hk]

/-! ## Evaluation of the fixtures

descendantsList recurses through the nested tree, so its concrete values
are established once by simp with its equations; everything downstream is
plain structural computation. -/

theorem badCls_desc : XmlNode.descendants badClsNode =
    [XmlNode.elem "patent-classification" [] "" [],
     XmlNode.elem "patent-classification" [] ""
       [XmlNode.elem "classification-scheme" [⟨"scheme", "CPCI"⟩] "" [],
        XmlNode.elem "classification-symbol" [] "H04L 9/00" []],
     XmlNode.elem "classification-scheme" [⟨"scheme", "CPCI"⟩] "" [],
     XmlNode.elem "classification-symbol" [] "H04L 9/00" []] := by
  simp [XmlNode.descendants, badClsNode, descendantsList, XmlNode.children]

theorem extractCls_badCls :
    extractClassifications badClsNode = Except.error "missing classification-scheme" := by
  show traverseExcept classificationFromNode
      ((XmlNode.descendants badClsNode).filter (fun d => d.name == "patent-classification")) = _
  rw [badCls_desc]
  rfl

theorem doc_badCls : docOfNode badClsNode =
    { country := "US", docNumber := "1", kind := "A", status := "active",
      patentClassifications := [], citations := [], familyMembers := [] } := by
  unfold docOfNode
  have h1 : orElseEmpty (extractClassifications badClsNode) = [] := by
    rw [extractCls_badCls]; rfl
  have h2 : citationsOf badClsNode = [] := by
    show (((XmlNode.descendants badClsNode).filter (fun d => d.name == "references-cited")).flatMap
        (fun rc => childrenNamed rc "citation")).map citationFromNode = []
    rw [badCls_desc]
    rfl
  have h3 : orElseEmpty (extractFamilyMembers badClsNode) = [] := by
    have h : extractFamilyMembers badClsNode = .ok [] := by
      show traverseExcept familyMemberFromNode
          (((XmlNode.descendants badClsNode).filter (fun d => d.name == "patent-family")).flatMap
            (fun pf => childrenNamed pf "family-member")) = _
      rw [badCls_desc]
      rfl
    rw [h]; rfl
  rw [h1, h2, h3]
  rfl

theorem row_badCls :
    exchangeDocumentFromNode badClsNode = Except.ok ⟨"US1A", "active", "", "", ""⟩ := by
  unfold exchangeDocumentFromNode
  rw [if_neg (by decide)]
  rw [doc_badCls]
  rfl

theorem scn_desc : XmlNode.descendants scnNode =
    [scnRefs, scnCit1, scnPatcit1, scnDocId1,
     scnCit2, scnCatX, scnCatY, scnPatcit2, scnDocId2, scnCountry, scnDocNum, scnKind] := by
  simp [XmlNode.descendants, scnNode, scnRefs, scnCit1, scnPatcit1, scnDocId1,
    scnCit2, scnCatX, scnCatY, scnPatcit2, scnDocId2, scnCountry, scnDocNum, scnKind,
    descendantsList, XmlNode.children]

theorem scn_citationsOf :
    citationsOf scnNode = [⟨"", []⟩, ⟨"US1234A1", ["X", "Y"]⟩] := by
  show (((XmlNode.descendants scnNode).filter (fun d => d.name == "references-cited")).flatMap
      (fun rc => childrenNamed rc "citation")).map citationFromNode = _
  rw [scn_desc]
  rfl

theorem scn_row_citations :
    (rowOfDoc (docOfNode scnNode)).citations = "US1234A1 (X,Y)" := by
  show String.intercalate ";" ((citationsOf scnNode).flatMap
      (fun c => if c.citedID ≠ "" then [fmtCitation c] else [])) = _
  rw [scn_citationsOf]
  rfl

theorem scn_ok :
    exchangeDocumentFromNode scnNode = Except.ok (rowOfDoc (docOfNode scnNode)) := by
  unfold exchangeDocumentFromNode
  rw [if_neg (by decide)]

/-! ## The claims -/

/-- Claim C1, amended: the recursive fixpoint extractAllZipsInDir terminates
on every input tree when deleteAfterExtract is true, because every archive
found by a walk is removed after its extraction and only its (structurally
smaller) contents can contribute new archives.  When deleteAfterExtract is
false the source keeps no visited-set and the loop does not terminate on
any tree that still contains a zip (see the counterexample). -/
theorem extractAllZipsInDir_terminates_when_deleting (s : List FsItem) :
    ∃ r, extractAllZipsInDir true (listWeight s + 1) s = some r :=
  extractAllZips_terminates_of_fuel (listWeight s + 1) s (by omega)

/-- Claim C1, counterexample: with deleteAfterExtract false, a directory
holding one (empty) archive is a fixed point of the walk-and-extract pass
while the walk keeps returning that archive, so the loop never exits: the
claimed visited-set guard does not exist in the source. -/
theorem extractAllZipsInDir_false_counterexample :
    findAllZipFilesRecursive [FsItem.zip []] ≠ [] ∧
    stepExtract false [FsItem.zip []] = [FsItem.zip []] ∧
    extractAllZipsInDir false 30 [FsItem.zip []] = none :=
  ⟨fun h => List.noConfusion h, rfl, rfl⟩

/-- Claim C2, amended: when every required attribute of the
exchange-document is present but the classification extraction fails (for a
patent-classification node missing its scheme or its symbol), the failure
is swallowed by the GetOrElse of the pipeline: the file is not rejected, a
row is still produced, and its cpc_list is computed from the empty
classification list, hence empty. -/
theorem exchangeDocumentFromNode_swallows_classification_errors (n : XmlNode)
    (hc : n.selectAttr "country" ≠ "") (hd : n.selectAttr "doc-number" ≠ "")
    (hk : n.selectAttr "kind" ≠ "") (hs : n.selectAttr "status" ≠ "")
    (e : String) (hbad : extractClassifications n = .error e) :
    exchangeDocumentFromNode n = .ok (rowOfDoc (docOfNode n)) ∧
      (rowOfDoc (docOfNode n)).cpcList = "" := by
  constructor
  · unfold exchangeDocumentFromNode
    rw [if_neg]
    push_neg
    exact ⟨hc, hd, hk, hs⟩
  · show String.intercalate ";" (cpcListOf (docOfNode n)) = ""
    unfold cpcListOf docOfNode
    rw [hbad]
    rfl

/-- Claim C2, witness: the amended statement at the concrete fixture, whose
first patent-classification node has no classification-scheme child. -/
theorem exchangeDocumentFromNode_swallows_witness :
    exchangeDocumentFromNode badClsNode = .ok (rowOfDoc (docOfNode badClsNode)) ∧
      (rowOfDoc (docOfNode badClsNode)).cpcList = "" :=
  exchangeDocumentFromNode_swallows_classification_errors badClsNode
    (by decide) (by decide) (by decide) (by decide)
    "missing classification-scheme" extractCls_badCls

/-- Claim C2, counterexample: badClsNode contains a patent-classification
descendant with no classification-scheme child (the extraction errors on
exactly that), yet the file is not rejected: exchangeDocumentFromNode
returns a row, with an empty cpc_list even though a well-formed CPCI
classification is also present. -/
theorem exchangeDocumentFromNode_no_rejection_counterexample :
    extractClassifications badClsNode = Except.error "missing classification-scheme" ∧
    exchangeDocumentFromNode badClsNode =
      Except.ok ⟨"US1A", "active", "", "", ""⟩ :=
  ⟨extractCls_badCls, row_badCls⟩

/-- Claim C3: extractZipToDir performs no containment check on the joined
destination path: the archive entry named dot-dot slash evil.txt inside
destDir downloads/archive is written to downloads/evil.txt, which does not
remain under destDir, and no ArchiveError is raised. -/
theorem extractZipToDir_zipslip_eval :
    extractZipToDir ["downloads", "archive"] [⟨["..", "evil.txt"], false⟩] =
      Except.ok [FsAction.mkdirAll ["downloads"],
        FsAction.writeFile ["downloads", "evil.txt"]] ∧
    leadsInto (cleanSegs ["downloads", "archive"]) ["downloads", "evil.txt"] = false :=
  ⟨rfl, rfl⟩

/-- Claim C4, amended: for a validated configuration (maxRetries at most
ten), the per-file action runs under LimitRetries(maxRetries) =
LimitRetries(min(maxRetries, 10)) combined with exponential backoff
starting at 5 ms; every error -- the cancellation error included -- makes
the attempt eligible for retry.  A context already cancelled at entry
returns the cancellation error with no attempt, but a cancellation observed
inside the retry loop is retried like any other error: all maxRetries + 1
attempts are performed before the cancellation error is returned. -/
theorem DownloadFile_retry_spec (maxRetries : Nat) (hv : maxRetries ≤ 10) :
    (∀ i, i < min maxRetries 10 →
        downloadRetryPolicy maxRetries i = some (5 * 2 ^ i)) ∧
    (∀ i, min maxRetries 10 ≤ i → downloadRetryPolicy maxRetries i = none) ∧
    (∀ e, retryEligible (Except.error e) = true) ∧
    (∀ v, retryEligible (Except.ok v) = false) ∧
    DownloadFile true maxRetries (fun _ => Except.error DownloadErr.cancelled) =
      (Except.error DownloadErr.cancelled, 0) ∧
    DownloadFile false maxRetries (fun _ => Except.error DownloadErr.cancelled) =
      (Except.error DownloadErr.cancelled, maxRetries + 1) := by
  have hmin : min maxRetries 10 = maxRetries := Nat.min_eq_left hv
  refine ⟨?_, ?_, fun e => rfl, fun v => rfl, rfl, ?_⟩
  · intro i hi
    rw [hmin] at hi
    simp [downloadRetryPolicy, concatPolicy, limitRetries, exponentialBackoffMs, hi]
  · intro i hi
    rw [hmin] at hi
    simp [downloadRetryPolicy, concatPolicy, limitRetries, exponentialBackoffMs,
      Nat.not_lt.mpr hi]
  · exact retrying_cancelled_count maxRetries (maxRetries + 1) 0 (by omega) (by omega)

/-- Claim C4, witness: the amended statement at maxRetries three. -/
theorem DownloadFile_retry_spec_witness :
    DownloadFile false 3 (fun _ => Except.error DownloadErr.cancelled) =
      (Except.error DownloadErr.cancelled, 4) :=
  (DownloadFile_retry_spec 3 (by omega)).2.2.2.2.2

/-- Claim C4, counterexample: with three retries allowed and the context
cancelled throughout, the per-file download does not exit after a single
attempt -- the retry predicate asks for a retry on the cancellation error,
and four attempts are performed. -/
theorem DownloadFile_cancel_retried_counterexample :
    DownloadFile false 3 (fun _ => Except.error DownloadErr.cancelled) ≠
      (Except.error DownloadErr.cancelled, 1) ∧
    retryEligible (Except.error DownloadErr.cancelled) = true := by
  refine ⟨fun h => ?_, rfl⟩
  have h4 : DownloadFile false 3 (fun _ => Except.error DownloadErr.cancelled) =
      (Except.error DownloadErr.cancelled, 4) := rfl
  rw [h4] at h
  exact absurd (congrArg Prod.snd h) (by decide)

/-- Claim C5: the shared HTTP client of FetchFiles is built with a
per-request timeout of Server.Timeout multiplied by one second whenever the
configured value is positive (stated below the int64 overflow threshold),
and of thirty seconds otherwise. -/
theorem FetchFiles_client_timeout_spec (t : Int) :
    (0 < t → t * secondNs < 2 ^ 63 → clientTimeout t = t * secondNs) ∧
    (t ≤ 0 → clientTimeout t = 30 * secondNs) := by
  constructor
  · intro h1 h2
    have hge : 0 ≤ t * secondNs := by
      have : (0 : Int) ≤ secondNs := by norm_num [secondNs]
      exact mul_nonneg h1.le this
    unfold clientTimeout wrap64
    rw [if_pos h1]
    have hmod : (t * secondNs + 2 ^ 63) % 2 ^ 64 = t * secondNs + 2 ^ 63 :=
      Int.emod_eq_of_lt (by omega) (by omega)
    omega
  · intro h
    unfold clientTimeout
    rw [if_neg (by omega)]

/-- Claim C6: for every document, the family_patents column is the
semicolon join of the strictly sorted, duplicate-free list of composed
family ids country ++ docNumber ++ kind coming exactly from the
publication-references with dataFormat docdb, the documents own patent id
excluded; in particular the column never contains the rows own patent_id. -/
theorem rowOfDoc_familyPatents_spec (doc : ExchangeDocument) :
    (rowOfDoc doc).familyPatents = String.intercalate ";" (familyListOf doc) ∧
    List.Pairwise (· < ·) (familyListOf doc) ∧
    (familyListOf doc).Nodup ∧
    (∀ s, s ∈ familyListOf doc ↔
      ((∃ fm ∈ doc.familyMembers, ∃ pr ∈ fm.publicationReferences,
          pr.dataFormat = "docdb" ∧
          pr.documentID.country ++ pr.documentID.docNumber ++ pr.documentID.kind = s) ∧
        s ≠ patentIDOf doc)) ∧
    patentIDOf doc ∉ familyListOf doc := by
  have hmem : ∀ s, s ∈ familyListOf doc ↔
      ((∃ fm ∈ doc.familyMembers, ∃ pr ∈ fm.publicationReferences,
          pr.dataFormat = "docdb" ∧
          pr.documentID.country ++ pr.documentID.docNumber ++ pr.documentID.kind = s) ∧
        s ≠ patentIDOf doc) := by
    intro s
    rw [familyListOf, mem_sortDedup, mem_familyIDsOf]
  refine ⟨rfl, sortDedup_sorted _, sortDedup_nodup _, hmem, fun hin => ?_⟩
  exact ((hmem _).mp hin).2 rfl

/-- Claim C7: for every document, the cpc_list column is the semicolon join
of the strictly sorted, duplicate-free list of the classification symbols
whose scheme is exactly CPCI; classifications with any other scheme do not
appear. -/
theorem rowOfDoc_cpcList_spec (doc : ExchangeDocument) :
    (rowOfDoc doc).cpcList = String.intercalate ";" (cpcListOf doc) ∧
    List.Pairwise (· < ·) (cpcListOf doc) ∧
    (cpcListOf doc).Nodup ∧
    ∀ s, s ∈ cpcListOf doc ↔
      ∃ pc ∈ doc.patentClassifications,
        pc.scheme = "CPCI" ∧ pc.classificationSymbol = s := by
  refine ⟨rfl, sortDedup_sorted _, sortDedup_nodup _, fun s => ?_⟩
  rw [cpcListOf, mem_sortDedup, List.mem_map]
  constructor
  · rintro ⟨pc, hpc, rfl⟩
    rw [List.mem_filter] at hpc
    exact ⟨pc, hpc.1, by simpa using hpc.2, rfl⟩
  · rintro ⟨pc, hpc, hsch, rfl⟩
    exact ⟨pc, List.mem_filter.mpr ⟨hpc, by simp [hsch]⟩, rfl⟩

/-- Claim C8: the citations column keeps exactly the citations with a
non-empty citedID, each formatted as the citedID followed by its categories
comma-joined inside parentheses, in document order joined by semicolons
with no deduplication; on the scenario document (one citation with an
all-empty document id, one citation US1234A1 with categories X and Y) the
column is exactly US1234A1 (X,Y), and a duplicated citation is kept
twice. -/
theorem rowOfDoc_citations_spec :
    (∀ doc : ExchangeDocument,
        (rowOfDoc doc).citations =
          String.intercalate ";"
            ((doc.citations.filter (fun c => c.citedID != "")).map fmtCitation)) ∧
    (∃ r, exchangeDocumentFromNode scnNode = Except.ok r ∧
        r.citations = "US1234A1 (X,Y)") ∧
    (rowOfDoc dupCitationDoc).citations = "US77B (X);US77B (X)" := by
  refine ⟨fun doc => ?_, ⟨rowOfDoc (docOfNode scnNode), scn_ok, scn_row_citations⟩, rfl⟩
  show citationsStrOf doc = _
  unfold citationsStrOf
  rw [flatMap_citation_format]

/-- Claim C9: the file-size parser at the boundary examples.  The spec
expects 1024 for the input 1024, but the source combines the integer and
fractional parts with option.Sequence2, which yields none when the
fractional part is absent, so every size string without a fraction falls
back to zero. -/
theorem parseFileSize_eval :
    parseFileSize "1.5 GB" = 1610612736 ∧
    parseFileSize "1024" = 0 ∧
    parseFileSize "2,5 kb" = 2560 ∧
    parseFileSize "xyz" = 0 ∧
    parseFileSize "" = 0 := by
  refine ⟨?_, ?_, ?_, ?_, ?_⟩ <;> decide

/-- Claim C10: row emission is all-or-nothing per XML file: the records of
a file are computed in full by processSingleXML before any row is written,
so when any exchange-document of the file is rejected, the CSV state is
left unchanged -- zero rows from that file are appended. -/
theorem ParseAllToCSV_file_all_or_nothing (csv : List CsvRow) (nodes : List XmlNode)
    (h : ∃ n ∈ nodes, ∃ e, exchangeDocumentFromNode n = Except.error e) :
    appendRowsOfFile csv nodes = csv := by
  obtain ⟨n, hn, e, he⟩ := h
  obtain ⟨e2, h2⟩ := traverseExcept_error_of_mem hn he
  unfold appendRowsOfFile processSingleXML
  rw [h2]

/-- Claim C10, witness: a file with one well-formed document and one
document missing its country attribute appends nothing. -/
theorem ParseAllToCSV_file_all_or_nothing_witness :
    appendRowsOfFile [] [goodNode, noCountryNode] = [] :=
  ParseAllToCSV_file_all_or_nothing [] [goodNode, noCountryNode]
    ⟨noCountryNode, List.mem_cons_of_mem goodNode (List.mem_cons_self noCountryNode []),
      "missing required attributes", rfl⟩

end EpoProc
